import Mathlib

/-!
# Verification of the goto_plugin_speed go-to-waypoint controller

Shallow embedding of `src/src/goto_plugin_speed.cpp` (namespace
`goto_plugin_speed`, class `Plugin`). Floating-point scalars of the
source are modelled by rationals; 3D Eigen vectors become the `Vec3`
structure. The per-tick execution loop `onExecute` is modelled as a
function over a finite list of per-tick environments, each supplying
the values the loop reads from its external collaborators
(goal predicate, cancellation flag, current position, current yaw,
actuator accept/reject status), and producing the list of commands sent
to the actuator interface together with the terminal result.
-/

namespace GotoSpeed

/-- A 3D vector of rationals, modelling `Eigen::Vector3d`. -/
structure Vec3 where
  x : ℚ
  y : ℚ
  z : ℚ
  deriving DecidableEq, Repr

/-- Component access by axis index, modelling `speed[j]` for `j = 0, 1, 2`. -/
def Vec3.get (v : Vec3) : Fin 3 → ℚ
  | 0 => v.x
  | 1 => v.y
  | 2 => v.z

/-- Componentwise subtraction, modelling `desired_position_ - actual_position_`. -/
def Vec3.sub (a b : Vec3) : Vec3 :=
  ⟨a.x - b.x, a.y - b.y, a.z - b.z⟩

/-- Multiplication of a vector by a scalar, modelling `speed *= c`. -/
def Vec3.scale (c : ℚ) (v : Vec3) : Vec3 :=
  ⟨c * v.x, c * v.y, c * v.z⟩

/-- Squared norm of the horizontal (x, y) components; the source condition
`speed_setpoint.head(2).norm() < 2.0f` is modelled as `horizNormSq < 4`. -/
def horizNormSq (v : Vec3) : ℚ :=
  v.x * v.x + v.y * v.y

/-- Embedding of `Plugin::getValidSpeed` (lines 171-178): clamp a single-axis
speed to `[-desired_speed, desired_speed]` whenever its magnitude exceeds
`desired_speed`, returning it unchanged otherwise. -/
def getValidSpeed (desired_speed : ℚ) (speed : ℚ) : ℚ :=
  if |speed| > desired_speed then
    (if speed < 0 then -desired_speed else desired_speed)
  else speed

/-- The per-axis clamp policy of `onExecute` (lines 139-144): `getValidSpeed`
applied independently to the three axes. -/
def clampVec (desired_speed : ℚ) (v : Vec3) : Vec3 :=
  ⟨getValidSpeed desired_speed v.x,
   getValidSpeed desired_speed v.y,
   getValidSpeed desired_speed v.z⟩

/-- One iteration of the proportional-scaling loop body of `onExecute`
(lines 129-137) at axis `j`: skip when `desired_speed` is zero or the axis
value is zero; otherwise, when the axis value exceeds the speed bound in
magnitude, rescale the whole vector by `|desired_speed / speed[j]|`. -/
def propStep (desired_speed : ℚ) (speed : Vec3) (j : Fin 3) : Vec3 :=
  if desired_speed = 0 ∨ speed.get j = 0 then speed
  else if desired_speed < speed.get j ∨ speed.get j < -desired_speed then
    Vec3.scale |desired_speed / speed.get j| speed
  else speed

/-- The proportional-scaling policy of `onExecute` (lines 127-138): the loop
`for (short j = 0; j < 3; j++)` applied to the mutable vector, axis by axis. -/
def propLimit (desired_speed : ℚ) (v : Vec3) : Vec3 :=
  propStep desired_speed (propStep desired_speed (propStep desired_speed v 0) 1) 2

/-- Embedding of the yaw-selection block of `onExecute` (lines 109-122).
The first assignment (line 109, a ternary) is immediately overwritten by the
`if / else if / else` chain and is kept here as a dead binding. The function
`atan2v` abstracts `getDesiredYawAngle` built on `atan2f`; `actualYaw`
abstracts `getActualYaw()`. -/
def selectYaw (ignoreYaw : Bool) (e : Vec3) (actualYaw : ℚ) (atan2v : ℚ → ℚ → ℚ) : ℚ :=
  let _dead : ℚ := if ignoreYaw then actualYaw else atan2v e.y e.x
  if ignoreYaw then actualYaw
  else if !ignoreYaw && decide (horizNormSq e < 4) then actualYaw
  else atan2v e.y e.x

/-- The configuration and goal data `onExecute` reads: the stored target
position `desired_position_`, the effective speed bound `desired_speed_`, the
`ignore_yaw_` flag from the goal, and the `proportional_speed_limit_`
parameter; `atan2v` abstracts the `atan2f` underlying `getDesiredYawAngle`. -/
structure ExecConfig where
  desired_position : Vec3
  desired_speed : ℚ
  ignore_yaw : Bool
  proportional_speed_limit : Bool
  atan2v : ℚ → ℚ → ℚ

/-- The values the loop body reads from its external collaborators during one
tick: `checkGoalCondition()`, `goal_handle->is_canceling()`, the current
position (read under `pose_mutex_`), `getActualYaw()`, and whether the
actuator interface accepts the tick's speed command (the boolean returned by
`sendSpeedCommandWithYawAngle`, which the source discards). -/
structure TickEnv where
  goalReached : Bool
  isCanceling : Bool
  actual_position : Vec3
  actualYaw : ℚ
  sendAccepted : Bool
  deriving DecidableEq, Repr

/-- A command dispatched to the actuator interface: a velocity-plus-yaw
command (`sendSpeedCommandWithYawAngle`) or a hold command (`sendHover`). -/
inductive Cmd where
  | speed (v : Vec3) (yaw : ℚ)
  | hover
  deriving DecidableEq, Repr

/-- Whether a command is the hold command. -/
def Cmd.isHover : Cmd → Bool
  | Cmd.hover => true
  | Cmd.speed _ _ => false

/-- The speed-delimiting block of `onExecute` (lines 126-144): proportional
scaling when `proportional_speed_limit_` is set, per-axis clamp otherwise. -/
def limitSpeed (cfg : ExecConfig) (v : Vec3) : Vec3 :=
  if cfg.proportional_speed_limit then propLimit cfg.desired_speed v
  else clampVec cfg.desired_speed v

/-- Embedding of the execution loop of `onExecute` (lines 94-161) over a
finite list of tick environments. Each list element supplies one tick's
external inputs; the result is the list of actuator commands issued, in
order, paired with the terminal value of `result->goto_success` (`none` when
the supplied ticks are exhausted with the loop still running). The `while`
condition evaluates `checkGoalCondition()` before the body's cancellation
check; on exit the source sets success, issues one hover, and returns. -/
def runExec (cfg : ExecConfig) : List TickEnv → List Cmd × Option Bool
  | [] => ([], none)
  | t :: rest =>
    if t.goalReached then ([Cmd.hover], some true)
    else if t.isCanceling then ([Cmd.hover], some false)
    else
      let err := Vec3.sub cfg.desired_position t.actual_position
      let yaw := selectYaw cfg.ignore_yaw err t.actualYaw cfg.atan2v
      let sp := limitSpeed cfg err
      (Cmd.speed sp yaw :: (runExec cfg rest).1, (runExec cfg rest).2)

/-- Replace a tick environment's actuator accept/reject status. -/
def withSend (b : Bool) (t : TickEnv) : TickEnv :=
  { t with sendAccepted := b }

theorem withSend_goalReached (b : Bool) (t : TickEnv) :
    (withSend b t).goalReached = t.goalReached := rfl

theorem withSend_isCanceling (b : Bool) (t : TickEnv) :
    (withSend b t).isCanceling = t.isCanceling := rfl

theorem withSend_actual_position (b : Bool) (t : TickEnv) :
    (withSend b t).actual_position = t.actual_position := rfl

theorem withSend_actualYaw (b : Bool) (t : TickEnv) :
    (withSend b t).actualYaw = t.actualYaw := rfl

/-- The velocity-plus-yaw command issued by one non-terminating tick. -/
def tickCmd (cfg : ExecConfig) (t : TickEnv) : Cmd :=
  Cmd.speed (limitSpeed cfg (Vec3.sub cfg.desired_position t.actual_position))
    (selectYaw cfg.ignore_yaw (Vec3.sub cfg.desired_position t.actual_position)
      t.actualYaw cfg.atan2v)

theorem Vec3.get_scale (c : ℚ) (v : Vec3) (j : Fin 3) :
    (Vec3.scale c v).get j = c * v.get j := by
  fin_cases j <;> rfl

theorem Vec3.scale_scale (c d : ℚ) (v : Vec3) :
    Vec3.scale c (Vec3.scale d v) = Vec3.scale (c * d) v := by
  simp [Vec3.scale, mul_assoc]

theorem Vec3.scale_one (v : Vec3) : Vec3.scale 1 v = v := by
  simp [Vec3.scale]

theorem getValidSpeed_abs_le (ds s : ℚ) (hds : 0 < ds) :
    |getValidSpeed ds s| ≤ ds := by
  unfold getValidSpeed
  split_ifs with h1 h2
  · rw [abs_neg, abs_of_pos hds]
  · rw [abs_of_pos hds]
  · exact le_of_not_lt h1

theorem getValidSpeed_id (ds s : ℚ) (h : |s| ≤ ds) :
    getValidSpeed ds s = s := by
  unfold getValidSpeed
  rw [if_neg (not_lt.mpr h)]

theorem getValidSpeed_zero_max (s : ℚ) : getValidSpeed 0 s = 0 := by
  unfold getValidSpeed
  split_ifs with h1 h2
  · exact neg_zero
  · rfl
  · have := abs_nonneg s
    have hs : |s| = 0 := le_antisymm (le_of_not_lt h1) this
    exact abs_eq_zero.mp hs

theorem getValidSpeed_abs_le_input (ds s : ℚ) (hds : 0 ≤ ds) :
    |getValidSpeed ds s| ≤ |s| := by
  unfold getValidSpeed
  split_ifs with h1 h2
  · rw [abs_neg, abs_of_nonneg hds]; exact le_of_lt h1
  · rw [abs_of_nonneg hds]; exact le_of_lt h1
  · exact le_refl _

theorem clampVec_get (ds : ℚ) (v : Vec3) (j : Fin 3) :
    (clampVec ds v).get j = getValidSpeed ds (v.get j) := by
  fin_cases j <;> rfl

/-- Claim C1: for every position-error vector and every positive `max_speed`,
the per-axis clamp policy produces a vector whose every axis has magnitude at
most `max_speed`, and leaves an axis unchanged whenever its magnitude is
already within `max_speed`. -/
theorem clampVec_bounds_and_identity (v : Vec3) (ds : ℚ) (hds : 0 < ds) (j : Fin 3) :
    |(clampVec ds v).get j| ≤ ds ∧ (|v.get j| ≤ ds → (clampVec ds v).get j = v.get j) := by
  rw [clampVec_get]
  exact ⟨getValidSpeed_abs_le ds _ hds, fun h => getValidSpeed_id ds _ h⟩

/-- Witness for Claim C1 at the concrete vector `(3, -5, 1)`, bound `2`,
axis `1`. -/
theorem clampVec_bounds_and_identity_witness :
    (0:ℚ) < 2 ∧
      (|(clampVec 2 ⟨3,-5,1⟩).get 1| ≤ 2 ∧
        (|(⟨3,-5,1⟩ : Vec3).get 1| ≤ 2 → (clampVec 2 ⟨3,-5,1⟩).get 1 = (⟨3,-5,1⟩ : Vec3).get 1)) :=
  ⟨by norm_num, clampVec_bounds_and_identity ⟨3,-5,1⟩ 2 (by norm_num) 1⟩

theorem propStep_scale_factor (ds : ℚ) (v : Vec3) (j : Fin 3) (hds : 0 ≤ ds) :
    ∃ c : ℚ, 0 < c ∧ c ≤ 1 ∧ propStep ds v j = Vec3.scale c v := by
  unfold propStep
  split_ifs with h1 h2
  · exact ⟨1, one_pos, le_refl 1, (Vec3.scale_one v).symm⟩
  · refine ⟨|ds / v.get j|, ?_, ?_, rfl⟩
    · push_neg at h1
      rw [abs_div]
      exact div_pos (abs_pos.mpr h1.1) (abs_pos.mpr h1.2)
    · push_neg at h1
      rw [abs_div, div_le_one (abs_pos.mpr h1.2)]
      have hgt : ds < |v.get j| := by
        rcases h2 with h | h
        · exact lt_of_lt_of_le h (le_abs_self _)
        · have hlt : ds < -(v.get j) := by linarith
          exact lt_of_lt_of_le hlt (neg_le_abs _)
      rw [abs_of_nonneg hds]
      exact le_of_lt hgt
  · exact ⟨1, one_pos, le_refl 1, (Vec3.scale_one v).symm⟩

theorem propLimit_scale_factor (ds : ℚ) (v : Vec3) (hds : 0 ≤ ds) :
    ∃ c : ℚ, 0 < c ∧ c ≤ 1 ∧ propLimit ds v = Vec3.scale c v := by
  obtain ⟨c0, hc0p, hc0le, h0⟩ := propStep_scale_factor ds v 0 hds
  obtain ⟨c1, hc1p, hc1le, h1⟩ := propStep_scale_factor ds (propStep ds v 0) 1 hds
  obtain ⟨c2, hc2p, hc2le, h2⟩ := propStep_scale_factor ds
    (propStep ds (propStep ds v 0) 1) 2 hds
  refine ⟨c2 * (c1 * c0), by positivity, ?_, ?_⟩
  · calc c2 * (c1 * c0) ≤ 1 * (c1 * c0) := by
          exact mul_le_mul_of_nonneg_right hc2le (by positivity)
      _ = c1 * c0 := one_mul _
      _ ≤ 1 * c0 := mul_le_mul_of_nonneg_right hc1le (le_of_lt hc0p)
      _ = c0 := one_mul _
      _ ≤ 1 := hc0le
  · rw [propLimit, h2, h1, h0, Vec3.scale_scale, Vec3.scale_scale, mul_assoc]

theorem propStep_zero_max (v : Vec3) (j : Fin 3) : propStep 0 v j = v := by
  simp [propStep]

/-- Claim C5: with `max_speed = 0` neither limiting policy divides by zero:
the proportional-scaling loop skips every axis and returns the input vector
unchanged, while the per-axis clamp sends every axis to `0`. -/
theorem limit_policies_zero_max_speed (v : Vec3) :
    propLimit 0 v = v ∧ clampVec 0 v = ⟨0, 0, 0⟩ := by
  constructor
  · rw [propLimit, propStep_zero_max, propStep_zero_max, propStep_zero_max]
  · simp [clampVec, getValidSpeed_zero_max]

/-- Claim C6: under proportional scaling with positive `max_speed` and no
zero axis, the output is a positive scalar multiple of the input, so the
ratios between axes (the direction of the vector) are those of the input. -/
theorem propLimit_direction_preserved (v : Vec3) (ds : ℚ)
    (_hx : v.x ≠ 0) (_hy : v.y ≠ 0) (_hz : v.z ≠ 0) (hds : 0 < ds) :
    ∃ c : ℚ, 0 < c ∧ propLimit ds v = Vec3.scale c v ∧
      (propLimit ds v).x * v.y = (propLimit ds v).y * v.x ∧
      (propLimit ds v).y * v.z = (propLimit ds v).z * v.y := by
  obtain ⟨c, hcp, _, heq⟩ := propLimit_scale_factor ds v (le_of_lt hds)
  refine ⟨c, hcp, heq, ?_, ?_⟩
  · rw [heq]; simp [Vec3.scale]; ring
  · rw [heq]; simp [Vec3.scale]; ring

/-- Witness for Claim C6 at the concrete vector `(10, 10, 5)` with bound `2`. -/
theorem propLimit_direction_preserved_witness :
    ((⟨10,10,5⟩ : Vec3).x ≠ 0 ∧ (⟨10,10,5⟩ : Vec3).y ≠ 0 ∧ (⟨10,10,5⟩ : Vec3).z ≠ 0 ∧
        (0:ℚ) < 2) ∧
      ∃ c : ℚ, 0 < c ∧ propLimit 2 ⟨10,10,5⟩ = Vec3.scale c ⟨10,10,5⟩ ∧
        (propLimit 2 ⟨10,10,5⟩).x * (⟨10,10,5⟩ : Vec3).y =
          (propLimit 2 ⟨10,10,5⟩).y * (⟨10,10,5⟩ : Vec3).x ∧
        (propLimit 2 ⟨10,10,5⟩).y * (⟨10,10,5⟩ : Vec3).z =
          (propLimit 2 ⟨10,10,5⟩).z * (⟨10,10,5⟩ : Vec3).y :=
  ⟨⟨by norm_num, by norm_num, by norm_num, by norm_num⟩,
    propLimit_direction_preserved ⟨10,10,5⟩ 2 (by norm_num) (by norm_num) (by norm_num)
      (by norm_num)⟩

/-- Claim C10: for every input vector and every nonnegative `max_speed`, both
limiting policies never amplify any axis: each output axis magnitude is at
most the corresponding input axis magnitude. -/
theorem limiter_no_amplification (v : Vec3) (ds : ℚ) (hds : 0 ≤ ds) (j : Fin 3) :
    |(clampVec ds v).get j| ≤ |v.get j| ∧ |(propLimit ds v).get j| ≤ |v.get j| := by
  constructor
  · rw [clampVec_get]
    exact getValidSpeed_abs_le_input ds _ hds
  · obtain ⟨c, hcp, hcle, heq⟩ := propLimit_scale_factor ds v hds
    rw [heq, Vec3.get_scale, abs_mul]
    calc |c| * |v.get j| ≤ 1 * |v.get j| := by
          exact mul_le_mul_of_nonneg_right
            (by rw [abs_of_pos hcp]; exact hcle) (abs_nonneg _)
      _ = |v.get j| := one_mul _

/-- Witness for Claim C10 at the concrete vector `(7, -3, 0)`, bound `2`,
axis `0`. -/
theorem limiter_no_amplification_witness :
    (0:ℚ) ≤ 2 ∧
      (|(clampVec 2 ⟨7,-3,0⟩).get 0| ≤ |(⟨7,-3,0⟩ : Vec3).get 0| ∧
        |(propLimit 2 ⟨7,-3,0⟩).get 0| ≤ |(⟨7,-3,0⟩ : Vec3).get 0|) :=
  ⟨by norm_num, limiter_no_amplification ⟨7,-3,0⟩ 2 (by norm_num) 0⟩

theorem propLimit_spec_example : propLimit 2 (Vec3.sub ⟨10,10,0⟩ ⟨0,0,0⟩) = ⟨2,2,0⟩ := by
  have hsub : Vec3.sub (⟨10,10,0⟩ : Vec3) ⟨0,0,0⟩ = ⟨10,10,0⟩ := by
    simp [Vec3.sub]
  have h0 : propStep 2 (⟨10,10,0⟩ : Vec3) 0 = ⟨2,2,0⟩ := by
    rw [propStep, if_neg (by norm_num [Vec3.get]), if_pos (by norm_num [Vec3.get])]
    simp only [Vec3.scale, Vec3.get]
    norm_num [abs_of_nonneg]
  have h1 : propStep 2 (⟨2,2,0⟩ : Vec3) 1 = ⟨2,2,0⟩ := by
    rw [propStep, if_neg (by norm_num [Vec3.get]), if_neg (by norm_num [Vec3.get])]
  have h2 : propStep 2 (⟨2,2,0⟩ : Vec3) 2 = ⟨2,2,0⟩ := by
    rw [propStep, if_pos (by norm_num [Vec3.get])]
  rw [hsub, propLimit, h0, h1, h2]

/-- Claim C4 counterexample: on target `(10,10,0)`, current `(0,0,0)`,
`max_speed = 2`, the proportional policy outputs x-component `2`, which is
farther than `1/2` from the `sqrt 2` the claim expects, so the output is not
approximately `(sqrt 2, sqrt 2, 0)`. -/
theorem propLimit_example_counterexample :
    (propLimit 2 (Vec3.sub ⟨10,10,0⟩ ⟨0,0,0⟩)).x = 2 ∧
      (1:ℝ)/2 < 2 - Real.sqrt 2 := by
  constructor
  · rw [propLimit_spec_example]
  · have h : Real.sqrt 2 < 3/2 := by
      rw [Real.sqrt_lt' (by norm_num)]
      norm_num
    linarith

/-- Claim C4 amended: on target `(10,10,0)`, current `(0,0,0)`,
`max_speed = 2`, the proportional policy outputs exactly `(2, 2, 0)`: the 1:1
ratio between the x and y axes is preserved and each axis magnitude is at most
`2`, but the vector is `(2,2,0)`, not approximately `(sqrt 2, sqrt 2, 0)` —
the policy bounds each axis, not the Euclidean norm. -/
theorem propLimit_example_amended :
    propLimit 2 (Vec3.sub ⟨10,10,0⟩ ⟨0,0,0⟩) = ⟨2,2,0⟩ ∧
      (propLimit 2 (Vec3.sub ⟨10,10,0⟩ ⟨0,0,0⟩)).x =
        (propLimit 2 (Vec3.sub ⟨10,10,0⟩ ⟨0,0,0⟩)).y ∧
      |(propLimit 2 (Vec3.sub ⟨10,10,0⟩ ⟨0,0,0⟩)).x| ≤ 2 ∧
      |(propLimit 2 (Vec3.sub ⟨10,10,0⟩ ⟨0,0,0⟩)).y| ≤ 2 ∧
      |(propLimit 2 (Vec3.sub ⟨10,10,0⟩ ⟨0,0,0⟩)).z| ≤ 2 := by
  rw [propLimit_spec_example]
  norm_num

/-- Claim C7: whenever `ignore_heading` is true, the selected heading is the
current actual heading, for every position-error vector and every atan2
function (so the atan2-derived heading is never used). -/
theorem selectYaw_ignore_heading (e : Vec3) (actualYaw : ℚ) (atan2v : ℚ → ℚ → ℚ) :
    selectYaw true e actualYaw atan2v = actualYaw := by
  simp [selectYaw]

/-- A concrete configuration used to exercise the execution loop. -/
def cexCfg : ExecConfig :=
  { desired_position := ⟨0,0,0⟩, desired_speed := 1, ignore_yaw := false,
    proportional_speed_limit := false, atan2v := fun _ _ => 0 }

/-- A tick at which both the goal predicate and the cancellation flag hold. -/
def tickGoalAndCancel : TickEnv := ⟨true, true, ⟨0,0,0⟩, 0, true⟩

/-- A tick at which the loop continues: goal unmet, no cancellation. -/
def tickNormal : TickEnv := ⟨false, false, ⟨1,1,1⟩, 0, true⟩

/-- A tick with the cancellation flag set and the goal unmet. -/
def tickCancelOnly : TickEnv := ⟨false, true, ⟨0,0,0⟩, 0, true⟩

/-- A tick at which the goal predicate holds and no cancellation is pending. -/
def tickGoalOnly : TickEnv := ⟨true, false, ⟨0,0,0⟩, 0, true⟩

/-- A continuing tick whose speed command the actuator rejects. -/
def tickRejected : TickEnv := ⟨false, false, ⟨1,1,1⟩, 0, false⟩

theorem runExec_append_continue (cfg : ExecConfig) (pre ticks : List TickEnv)
    (hpre : ∀ s ∈ pre, s.goalReached = false ∧ s.isCanceling = false) :
    runExec cfg (pre ++ ticks) =
      (pre.map (tickCmd cfg) ++ (runExec cfg ticks).1, (runExec cfg ticks).2) := by
  induction pre with
  | nil => simp
  | cons s pre ih =>
    obtain ⟨hg, hc⟩ := hpre s (List.mem_cons_self s pre)
    have ih' := ih fun u hu => hpre u (List.mem_cons_of_mem s hu)
    simp [runExec, hg, hc, ih', tickCmd]

/-- Claim C2 counterexample: at a tick where the cancellation flag is set and
the goal predicate also holds, the loop exits through the `while` condition
and reports success — it does not transition to Cancelled. -/
theorem runExec_goal_first_counterexample :
    runExec cexCfg [tickGoalAndCancel] = ([Cmd.hover], some true) ∧
      (runExec cexCfg [tickGoalAndCancel]).2 ≠ some false := by
  constructor
  · simp [runExec, tickGoalAndCancel]
  · simp [runExec, tickGoalAndCancel]

/-- Claim C2 amended: the goal predicate is evaluated first (it is the `while`
condition); the cancellation flag is checked second, so whenever the flag is
set at a tick whose goal predicate does not hold, the execution reports
failure, issues one hold command, and stops. -/
theorem runExec_cancel_second (cfg : ExecConfig) (t : TickEnv) (rest : List TickEnv)
    (hc : t.isCanceling = true) (hg : t.goalReached = false) :
    runExec cfg (t :: rest) = ([Cmd.hover], some false) := by
  simp [runExec, hg, hc]

/-- Witness for Claim C2 (amended) at the concrete cancelled tick. -/
theorem runExec_cancel_second_witness :
    tickCancelOnly.isCanceling = true ∧ tickCancelOnly.goalReached = false ∧
      runExec cexCfg [tickCancelOnly] = ([Cmd.hover], some false) :=
  ⟨rfl, rfl, runExec_cancel_second cexCfg tickCancelOnly [] rfl rfl⟩

/-- Claim C8 counterexample: the cancellation flag set from tick 1 onwards is
never observed when the goal predicate holds at tick 1 — execution terminates
with success, not with failure. -/
theorem runExec_cancel_masked_by_goal :
    (runExec cexCfg [tickNormal, tickGoalAndCancel]).2 = some true ∧
      (runExec cexCfg [tickNormal, tickGoalAndCancel]).2 ≠ some false := by
  have h : (runExec cexCfg [tickNormal, tickGoalAndCancel]).2 = some true := by
    simp [runExec, tickNormal, tickGoalAndCancel]
  exact ⟨h, by rw [h]; simp⟩

/-- Claim C8 amended: a cancellation flag raised by tick N+1 is observed at
that tick provided the goal predicate does not hold there; execution then
terminates with success = false and the trace ends in a single hold command,
every earlier command being a velocity command. -/
theorem runExec_cancel_next_tick (cfg : ExecConfig) (pre : List TickEnv)
    (t : TickEnv) (rest : List TickEnv)
    (hpre : ∀ s ∈ pre, s.goalReached = false ∧ s.isCanceling = false)
    (hc : t.isCanceling = true) (hg : t.goalReached = false) :
    ∃ cs : List Cmd, runExec cfg (pre ++ t :: rest) = (cs ++ [Cmd.hover], some false) ∧
      cs.all (fun c => !c.isHover) = true := by
  refine ⟨pre.map (tickCmd cfg), ?_, ?_⟩
  · rw [runExec_append_continue cfg pre (t :: rest) hpre]
    simp [runExec, hg, hc]
  · refine List.all_eq_true.mpr fun u hu => ?_
    obtain ⟨s, _, rfl⟩ := List.mem_map.mp hu
    simp [tickCmd, Cmd.isHover]

/-- Witness for Claim C8 (amended): one continuing tick, then a cancelled
tick. -/
theorem runExec_cancel_next_tick_witness :
    (∀ s ∈ [tickNormal], s.goalReached = false ∧ s.isCanceling = false) ∧
      tickCancelOnly.isCanceling = true ∧ tickCancelOnly.goalReached = false ∧
      ∃ cs : List Cmd,
        runExec cexCfg ([tickNormal] ++ tickCancelOnly :: []) =
          (cs ++ [Cmd.hover], some false) ∧
        cs.all (fun c => !c.isHover) = true :=
  ⟨fun s hs => by
      rw [List.mem_singleton.mp hs]
      exact ⟨rfl, rfl⟩,
    rfl, rfl,
    runExec_cancel_next_tick cexCfg [tickNormal] tickCancelOnly []
      (fun s hs => by
        rw [List.mem_singleton.mp hs]
        exact ⟨rfl, rfl⟩)
      rfl rfl⟩

/-- Claim C9: whenever the goal predicate holds at the start of a tick with no
cancellation pending (after any number of continuing ticks), execution
terminates with success = true and the trace ends in a single hold command,
every earlier command being a velocity command — no command follows the
hold. -/
theorem runExec_goal_success (cfg : ExecConfig) (pre : List TickEnv)
    (t : TickEnv) (rest : List TickEnv)
    (hpre : ∀ s ∈ pre, s.goalReached = false ∧ s.isCanceling = false)
    (hg : t.goalReached = true) (_hc : t.isCanceling = false) :
    ∃ cs : List Cmd, runExec cfg (pre ++ t :: rest) = (cs ++ [Cmd.hover], some true) ∧
      cs.all (fun c => !c.isHover) = true := by
  refine ⟨pre.map (tickCmd cfg), ?_, ?_⟩
  · rw [runExec_append_continue cfg pre (t :: rest) hpre]
    simp [runExec, hg]
  · refine List.all_eq_true.mpr fun u hu => ?_
    obtain ⟨s, _, rfl⟩ := List.mem_map.mp hu
    simp [tickCmd, Cmd.isHover]

/-- Witness for Claim C9: one continuing tick, then a goal-satisfied tick. -/
theorem runExec_goal_success_witness :
    (∀ s ∈ [tickNormal], s.goalReached = false ∧ s.isCanceling = false) ∧
      tickGoalOnly.goalReached = true ∧ tickGoalOnly.isCanceling = false ∧
      ∃ cs : List Cmd,
        runExec cexCfg ([tickNormal] ++ tickGoalOnly :: []) =
          (cs ++ [Cmd.hover], some true) ∧
        cs.all (fun c => !c.isHover) = true :=
  ⟨fun s hs => by
      rw [List.mem_singleton.mp hs]
      exact ⟨rfl, rfl⟩,
    rfl, rfl,
    runExec_goal_success cexCfg [tickNormal] tickGoalOnly []
      (fun s hs => by
        rw [List.mem_singleton.mp hs]
        exact ⟨rfl, rfl⟩)
      rfl rfl⟩

/-- Claim C3 counterexample: the actuator rejects the tick-0 speed command
(`sendAccepted = false`), yet the loop issues a second velocity command on
tick 1 and terminates by goal satisfaction with success — there is no Aborted
termination at the rejection. -/
theorem runExec_rejection_counterexample :
    (runExec cexCfg [tickRejected, tickNormal, tickGoalOnly]).2 = some true ∧
      (runExec cexCfg [tickRejected, tickNormal, tickGoalOnly]).1.countP
        (fun c => !c.isHover) = 2 := by
  constructor
  · simp [runExec, tickRejected, tickNormal, tickGoalOnly]
  · simp [runExec, tickRejected, tickNormal, tickGoalOnly, List.countP_cons, Cmd.isHover]

/-- Claim C3 amended: the loop discards the boolean returned by
`sendSpeedCommandWithYawAngle`: the commands issued and the terminal result
are identical for every assignment of per-tick actuator accept/reject
statuses, so after a rejection the loop keeps issuing velocity commands and
never terminates because of the rejection. -/
theorem runExec_send_status_ignored (cfg : ExecConfig) (ticks : List TickEnv)
    (f : TickEnv → Bool) :
    runExec cfg (ticks.map fun t => withSend (f t) t) = runExec cfg ticks := by
  induction ticks with
  | nil => rfl
  | cons t rest ih =>
    by_cases hg : t.goalReached = true
    · simp [runExec, withSend_goalReached, hg]
    · by_cases hc : t.isCanceling = true
      · simp [runExec, withSend_goalReached, withSend_isCanceling, hg, hc]
      · simp [runExec, withSend_goalReached, withSend_isCanceling,
          withSend_actual_position, withSend_actualYaw, hg, hc, ih]

end GotoSpeed
